import Mathlib

set_option maxRecDepth 100000

/-!
Verification of the data-collection layer of the `painel_previsoes_macro`
repository (`02-funcoes.py`, `03-coleta.py`).

The Python code is shallowly embedded as executable Lean definitions:

* `Date` models `datetime.date` (proleptic Gregorian calendar, years 1–9999,
  as enforced by the `datetime` constructor); `Date.lt`/`Date.le` model
  Python's value comparison of dates, `replaceYear` models
  `date.replace(year=…)` (returning `none` where Python raises `ValueError`),
  and `addDays` models `date + timedelta(days=n)` (returning `none` where
  Python raises `OverflowError` past `date.max = 9999-12-31`).
* `split_date_range` models the window-fragmentation function of the same
  name; `ler_csv` models the retrying CSV reader; `coleta_*` model the
  source adapters; `coleta_run` models the dispatch/bucketing script
  `03-coleta.py`.

Dates are passed around as `Date` values; the `strftime("%d/%m/%Y")` /
`strptime` round-trip of the original (which shuttles the same calendar
dates through strings) is injective on valid dates and is elided.
-/

/-- A calendar date, as carried by Python's `datetime.date`. -/
structure Date where
  year : Nat
  month : Nat
  day : Nat
deriving DecidableEq

/-- Gregorian leap-year rule, as implemented by `datetime`. -/
def isLeapYear (y : Nat) : Bool :=
  y % 4 == 0 && (y % 100 != 0 || y % 400 == 0)

/-- Number of days in a month of a given year (as in `datetime`). -/
def daysInMonth (y m : Nat) : Nat :=
  if m = 2 then (if isLeapYear y then 29 else 28)
  else if m = 4 ∨ m = 6 ∨ m = 9 ∨ m = 11 then 30
  else 31

/-- The validity check performed by the `datetime.date` constructor:
year in 1..9999, month in 1..12, day in 1..days-in-month. -/
def Date.Valid (d : Date) : Prop :=
  1 ≤ d.year ∧ d.year ≤ 9999 ∧ 1 ≤ d.month ∧ d.month ≤ 12 ∧
    1 ≤ d.day ∧ d.day ≤ daysInMonth d.year d.month

instance (d : Date) : Decidable d.Valid :=
  decidable_of_iff (1 ≤ d.year ∧ d.year ≤ 9999 ∧ 1 ≤ d.month ∧ d.month ≤ 12 ∧
    1 ≤ d.day ∧ d.day ≤ daysInMonth d.year d.month) Iff.rfl

/-- Python's `<` on `datetime.date`: lexicographic on (year, month, day). -/
def Date.lt (a b : Date) : Prop :=
  a.year < b.year ∨ (a.year = b.year ∧
    (a.month < b.month ∨ (a.month = b.month ∧ a.day < b.day)))

instance (a b : Date) : Decidable (Date.lt a b) :=
  decidable_of_iff (a.year < b.year ∨ (a.year = b.year ∧
    (a.month < b.month ∨ (a.month = b.month ∧ a.day < b.day)))) Iff.rfl

instance : LT Date := ⟨Date.lt⟩

instance (a b : Date) : Decidable (a < b) := inferInstanceAs (Decidable (Date.lt a b))

/-- Python's `<=` on `datetime.date`. -/
def Date.le (a b : Date) : Prop :=
  a.year < b.year ∨ (a.year = b.year ∧
    (a.month < b.month ∨ (a.month = b.month ∧ a.day ≤ b.day)))

instance (a b : Date) : Decidable (Date.le a b) :=
  decidable_of_iff (a.year < b.year ∨ (a.year = b.year ∧
    (a.month < b.month ∨ (a.month = b.month ∧ a.day ≤ b.day)))) Iff.rfl

instance : LE Date := ⟨Date.le⟩

instance (a b : Date) : Decidable (a ≤ b) := inferInstanceAs (Decidable (Date.le a b))

/-- Days of year `y` that precede month `m` (0 for January). -/
def daysBeforeMonth (y : Nat) : Nat → Nat
  | 0 => 0
  | 1 => 0
  | m + 2 => daysBeforeMonth y (m + 1) + daysInMonth y (m + 1)

/-- Total number of days in all years strictly before year `y`
(0 for years 0 and 1). -/
def daysBeforeYear : Nat → Nat
  | 0 => 0
  | 1 => 0
  | y + 2 => daysBeforeYear (y + 1) + (if isLeapYear (y + 1) then 366 else 365)

/-- Day index of a date in the proleptic Gregorian calendar
(1 for 0001-01-01). Strictly monotone along the calendar order, it is the
yardstick for `timedelta` arithmetic. -/
def toRD (d : Date) : Nat :=
  daysBeforeYear d.year + daysBeforeMonth d.year d.month + d.day

/-- The last representable `datetime.date`, `date.max`. -/
def maxDate : Date := ⟨9999, 12, 31⟩

/-- Successor day; `none` exactly at `date.max` (where Python's date
arithmetic overflows). -/
def nextDay (d : Date) : Option Date :=
  if d.day < daysInMonth d.year d.month then some ⟨d.year, d.month, d.day + 1⟩
  else if d.month < 12 then some ⟨d.year, d.month + 1, 1⟩
  else if d.year < 9999 then some ⟨d.year + 1, 1, 1⟩
  else none

/-- Models `d + timedelta(days = n)`; `none` models the `OverflowError` raised when
the result would exceed `date.max`. -/
def addDays : Date → Nat → Option Date
  | d, 0 => some d
  | d, n + 1 =>
    match nextDay d with
    | some e => addDays e n
    | none => none

/-- Models `d.replace(year = y)`: keeps month and day, re-validating through the
`date` constructor; `none` models the `ValueError` Python raises for an
invalid day (e.g. Feb 29 of a non-leap year) or an out-of-range year. -/
def replaceYear (d : Date) (y : Nat) : Option Date :=
  if (Date.mk y d.month d.day).Valid then some ⟨y, d.month, d.day⟩ else none

theorem daysInMonth_pos (y m : Nat) : 1 ≤ daysInMonth y m := by
  unfold daysInMonth
  split
  · split <;> omega
  · split <;> omega

theorem daysBeforeMonth_succ (y m : Nat) (hm : 1 ≤ m) :
    daysBeforeMonth y (m + 1) = daysBeforeMonth y m + daysInMonth y m := by
  match m, hm with
  | m + 1, _ => rfl

theorem daysBeforeMonth_mono (y : Nat) {m m' : Nat} (h : m ≤ m') :
    daysBeforeMonth y m ≤ daysBeforeMonth y m' := by
  induction m' with
  | zero =>
    have : m = 0 := by omega
    subst this
    exact le_refl _
  | succ n ih =>
    rcases Nat.lt_or_ge m (n + 1) with hlt | hge
    · have hle : daysBeforeMonth y m ≤ daysBeforeMonth y n := ih (by omega)
      rcases Nat.eq_zero_or_pos n with hn | hn
      · subst hn
        have : m = 0 := by omega
        subst this
        simp [daysBeforeMonth]
      · rw [daysBeforeMonth_succ y n hn]
        omega
    · have : m = n + 1 := by omega
      subst this
      exact le_refl _

/-- Total days in year `y`: 366 in leap years, 365 otherwise. -/
theorem daysBeforeMonth_year (y : Nat) :
    daysBeforeMonth y 12 + daysInMonth y 12 = if isLeapYear y then 366 else 365 := by
  rcases h : isLeapYear y <;> simp [daysBeforeMonth, daysInMonth, h]

theorem daysBeforeYear_succ (y : Nat) (hy : 1 ≤ y) :
    daysBeforeYear (y + 1) = daysBeforeYear y + (if isLeapYear y then 366 else 365) := by
  match y, hy with
  | y + 1, _ => rfl

theorem daysBeforeYear_mono {u v : Nat} (h : u ≤ v) :
    daysBeforeYear u ≤ daysBeforeYear v := by
  induction v with
  | zero =>
    have : u = 0 := by omega
    subst this
    exact le_refl _
  | succ n ih =>
    rcases Nat.lt_or_ge n u with h1 | h1
    · have : u = n + 1 := by omega
      subst this
      exact le_refl _
    · have h2 := ih h1
      rcases Nat.eq_zero_or_pos n with hn | hn
      · subst hn
        have : u = 0 := by omega
        subst this
        simp [daysBeforeYear]
      · rw [daysBeforeYear_succ n hn]
        split <;> omega

/-- Builds a `Date.Valid` proof from bounds on the three fields. -/
theorem valid_mk (y m day : Nat) (h1 : 1 ≤ y) (h2 : y ≤ 9999) (h3 : 1 ≤ m)
    (h4 : m ≤ 12) (h5 : 1 ≤ day) (h6 : day ≤ daysInMonth y m) :
    (Date.mk y m day).Valid :=
  ⟨h1, h2, h3, h4, h5, h6⟩

/-- Year rollover: the day after Dec 31 of year `y` has index one higher. -/
theorem toRD_jan1_succ (y : Nat) (hy : 1 ≤ y) :
    toRD ⟨y + 1, 1, 1⟩ = toRD ⟨y, 12, 31⟩ + 1 := by
  have h1 := daysBeforeMonth_year y
  have h2 := daysBeforeYear_succ y hy
  rcases h : isLeapYear y <;> simp [h] at h1 h2 <;>
    · simp only [toRD]
      show daysBeforeYear (y + 1) + daysBeforeMonth (y + 1) 1 + 1 =
        daysBeforeYear y + daysBeforeMonth y 12 + 31 + 1
      have h3 : daysBeforeMonth (y + 1) 1 = 0 := rfl
      have h4 : daysInMonth y 12 = 31 := rfl
      omega

/-- The month/day contribution of a valid date lies between 1 (Jan 1) and
the year's total day count. -/
theorem monthDay_bounds (y m day : Nat) (h1 : 1 ≤ m) (h2 : m ≤ 12)
    (h3 : 1 ≤ day) (h4 : day ≤ daysInMonth y m) :
    1 ≤ daysBeforeMonth y m + day ∧
      daysBeforeMonth y m + day ≤ daysBeforeMonth y 12 + daysInMonth y 12 := by
  constructor
  · omega
  · rcases Nat.lt_or_ge m 12 with hm | hm
    · have hs : daysBeforeMonth y m + daysInMonth y m = daysBeforeMonth y (m + 1) :=
        (daysBeforeMonth_succ y m h1).symm
      have hmono : daysBeforeMonth y (m + 1) ≤ daysBeforeMonth y 12 :=
        daysBeforeMonth_mono y (by omega)
      omega
    · have : m = 12 := by omega
      subst this
      omega

/-- The map `toRD` is strictly monotone along the calendar order on valid dates. -/
theorem toRD_lt_of_lt {a b : Date} (ha : a.Valid) (hb : b.Valid) (h : a < b) :
    toRD a < toRD b := by
  obtain ⟨ay, am, ad⟩ := a
  obtain ⟨by', bm, bd⟩ := b
  obtain ⟨ha1, ha2, ha3, ha4, ha5, ha6⟩ := ha
  obtain ⟨hb1, hb2, hb3, hb4, hb5, hb6⟩ := hb
  dsimp only at ha1 ha2 ha3 ha4 ha5 ha6 hb1 hb2 hb3 hb4 hb5 hb6
  rcases h with hy | ⟨hy, hm | ⟨hm, hd⟩⟩
  · -- strictly earlier year: pass through Dec 31 / Jan 1 of the year boundary
    dsimp only at hy
    have hub := (monthDay_bounds ay am ad ha3 ha4 ha5 ha6).2
    have hlb := (monthDay_bounds by' bm bd hb3 hb4 hb5 hb6).1
    have hyy := daysBeforeMonth_year ay
    have hstep := daysBeforeYear_succ ay ha1
    have hmono : daysBeforeYear (ay + 1) ≤ daysBeforeYear by' :=
      daysBeforeYear_mono (by omega)
    simp only [toRD]
    rcases hley : isLeapYear ay <;> simp [hley] at hyy hstep <;> omega
  · -- same year, strictly earlier month
    dsimp only at hy hm
    subst hy
    have hs : daysBeforeMonth ay am + daysInMonth ay am = daysBeforeMonth ay (am + 1) :=
      (daysBeforeMonth_succ ay am ha3).symm
    have hmono : daysBeforeMonth ay (am + 1) ≤ daysBeforeMonth ay bm :=
      daysBeforeMonth_mono ay (by omega)
    simp only [toRD]
    omega
  · -- same year and month, earlier day
    dsimp only at hy hm hd
    subst hy
    subst hm
    simp only [toRD]
    omega

theorem date_trichotomy (a b : Date) : a < b ∨ a = b ∨ b < a := by
  obtain ⟨ay, am, ad⟩ := a
  obtain ⟨by', bm, bd⟩ := b
  show Date.lt _ _ ∨ _ ∨ Date.lt _ _
  simp only [Date.lt, Date.mk.injEq]
  omega

theorem date_le_iff_lt_or_eq (a b : Date) : a ≤ b ↔ a < b ∨ a = b := by
  obtain ⟨ay, am, ad⟩ := a
  obtain ⟨by', bm, bd⟩ := b
  show Date.le _ _ ↔ Date.lt _ _ ∨ _
  simp only [Date.le, Date.lt, Date.mk.injEq]
  omega

theorem date_not_lt_of_le {a b : Date} (h : a ≤ b) : ¬ b < a := by
  obtain ⟨ay, am, ad⟩ := a
  obtain ⟨by', bm, bd⟩ := b
  revert h
  show Date.le _ _ → ¬ Date.lt _ _
  simp only [Date.le, Date.lt]
  omega

theorem toRD_le_of_le {a b : Date} (ha : a.Valid) (hb : b.Valid) (h : a ≤ b) :
    toRD a ≤ toRD b := by
  rcases (date_le_iff_lt_or_eq a b).mp h with hlt | heq
  · exact le_of_lt (toRD_lt_of_lt ha hb hlt)
  · subst heq
    exact le_refl _

theorem toRD_lt_iff {a b : Date} (ha : a.Valid) (hb : b.Valid) :
    a < b ↔ toRD a < toRD b := by
  constructor
  · exact toRD_lt_of_lt ha hb
  · intro h
    rcases date_trichotomy a b with h1 | h1 | h1
    · exact h1
    · subst h1
      omega
    · have := toRD_lt_of_lt hb ha h1
      omega

theorem toRD_le_iff {a b : Date} (ha : a.Valid) (hb : b.Valid) :
    a ≤ b ↔ toRD a ≤ toRD b := by
  constructor
  · exact toRD_le_of_le ha hb
  · intro h
    rcases date_trichotomy a b with h1 | h1 | h1
    · exact (date_le_iff_lt_or_eq a b).mpr (Or.inl h1)
    · exact (date_le_iff_lt_or_eq a b).mpr (Or.inr h1)
    · have := toRD_lt_of_lt hb ha h1
      omega

theorem toRD_inj {a b : Date} (ha : a.Valid) (hb : b.Valid) (h : toRD a = toRD b) :
    a = b := by
  rcases date_trichotomy a b with h1 | h1 | h1
  · have := toRD_lt_of_lt ha hb h1
    omega
  · exact h1
  · have := toRD_lt_of_lt hb ha h1
    omega

/-- A valid date is either `date.max` (no successor) or has a valid
successor day with day index one higher. -/
theorem nextDay_spec (d : Date) (hd : d.Valid) :
    (d = maxDate ∧ nextDay d = none) ∨
      ∃ e, nextDay d = some e ∧ e.Valid ∧ toRD e = toRD d + 1 := by
  obtain ⟨y, m, day⟩ := d
  obtain ⟨h1, h2, h3, h4, h5, h6⟩ := hd
  dsimp only at h1 h2 h3 h4 h5 h6
  unfold nextDay
  simp only
  by_cases hday : day < daysInMonth y m
  · rw [if_pos hday]
    right
    refine ⟨_, rfl, valid_mk y m (day + 1) h1 h2 h3 h4 (by omega) (by omega), ?_⟩
    simp only [toRD]
    omega
  · rw [if_neg hday]
    by_cases hm : m < 12
    · rw [if_pos hm]
      right
      have hpos := daysInMonth_pos y (m + 1)
      refine ⟨_, rfl, valid_mk y (m + 1) 1 h1 h2 (by omega) (by omega) (by omega) hpos, ?_⟩
      simp only [toRD]
      have hs := daysBeforeMonth_succ y m h3
      omega
    · rw [if_neg hm]
      have hm12 : m = 12 := by omega
      subst hm12
      have hdim : daysInMonth y 12 = 31 := rfl
      by_cases hy : y < 9999
      · rw [if_pos hy]
        right
        refine ⟨_, rfl, valid_mk (y + 1) 1 1 (by omega) (by omega) (by omega) (by omega)
          (by omega) (daysInMonth_pos (y + 1) 1), ?_⟩
        have hday31 : day = 31 := by omega
        subst hday31
        exact toRD_jan1_succ y h1
      · rw [if_neg hy]
        left
        constructor
        · have : y = 9999 := by omega
          subst this
          have : day = 31 := by omega
          subst this
          rfl
        · rfl

/-- Addition `date + timedelta(days = n)` succeeds iff it stays within the calendar,
and lands exactly `n` day indices later. -/
theorem addDays_spec (n : Nat) :
    ∀ d : Date, d.Valid → toRD d + n ≤ toRD maxDate →
      ∃ e, addDays d n = some e ∧ e.Valid ∧ toRD e = toRD d + n := by
  induction n with
  | zero =>
    intro d hd _
    exact ⟨d, rfl, hd, by omega⟩
  | succ k ih =>
    intro d hd hle
    rcases nextDay_spec d hd with ⟨hmax, hnone⟩ | ⟨e, hsome, he, hrd⟩
    · subst hmax
      omega
    · have hrec := ih e he (by omega)
      obtain ⟨f, hf, hfv, hfr⟩ := hrec
      refine ⟨f, ?_, hfv, by omega⟩
      show addDays d (k + 1) = some f
      unfold addDays
      rw [hsome]
      exact hf

/-! ## The window splitter `split_date_range` (02-funcoes.py, lines 166-193) -/

/-- Exception kinds observable from the embedded code. `domainError` is the
`Exception(f"Falha na coleta da série {codigo} ({nome})")` raised by the
adapters; the others model built-in Python exceptions that escape
unwrapped. -/
inductive PyError where
  | domainError (msg : String)
  | attributeError (msg : String)
  | keyError (msg : String)
  | valueError (msg : String)
  | overflowError
deriving DecidableEq

/-- The candidate window end of one loop iteration:
`current_start.replace(year = current_start.year + interval_years)`,
falling back to `current_start + timedelta(days = 365 * interval_years)`
when `replace` raises `ValueError`. A fallback result past `date.max`
raises `OverflowError` (uncaught in the original). -/
def stepCandidate (cur : Date) (k : Nat) : Except PyError Date :=
  match replaceYear cur (cur.year + k) with
  | some t => .ok t
  | none =>
    match addDays cur (365 * k) with
    | some t => .ok t
    | none => .error .overflowError

/-- The `while current_start < end_date` loop of `split_date_range`,
with an explicit iteration budget. Each iteration strictly advances
`current_start`, so `toRD end_date + 1` iterations are never exhausted
for `interval_years ≥ 1` (for `interval_years = 0` the original loop
does not terminate; no claim concerns that case). -/
def splitGo (endDate : Date) (k : Nat) : Nat → Date → Except PyError (List (Date × Date))
  | 0, _ => .error .overflowError
  | fuel + 1, cur =>
    if cur < endDate then
      match stepCandidate cur k with
      | .error e => .error e
      | .ok t =>
        match splitGo endDate k fuel (if endDate < t then endDate else t) with
        | .error e => .error e
        | .ok rest => .ok ((cur, if endDate < t then endDate else t) :: rest)
    else .ok []

/-- Models `split_date_range(start_date_str, end_date_str, interval_years=5)`
(`interval_years` is 5 by default at every call site of the original):
fragments `[start, end]` into windows of at most `interval_years` years,
clamping the last window to `end`. Windows are returned as date pairs
(standing for the `strftime`'d strings of the original). The iteration
budget `366 * (end.year + 1)` strictly exceeds `toRD end` and hence the
number of loop iterations (each iteration advances `current_start` by at
least one day while it stays below `end`). -/
def split_date_range (start_date end_date : Date) (interval_years : Nat) :
    Except PyError (List (Date × Date)) :=
  splitGo end_date interval_years (366 * (end_date.year + 1)) start_date

theorem daysBeforeYear_le (y : Nat) : daysBeforeYear y ≤ 366 * (y - 1) := by
  induction y with
  | zero => simp [daysBeforeYear]
  | succ n ih =>
    rcases Nat.eq_zero_or_pos n with hn | hn
    · subst hn
      simp [daysBeforeYear]
    · rw [daysBeforeYear_succ n hn]
      split <;> omega

theorem daysBeforeYear_ge (y : Nat) : 365 * (y - 1) ≤ daysBeforeYear y := by
  induction y with
  | zero => simp [daysBeforeYear]
  | succ n ih =>
    rcases Nat.eq_zero_or_pos n with hn | hn
    · subst hn
      simp [daysBeforeYear]
    · rw [daysBeforeYear_succ n hn]
      split <;> omega

theorem toRD_le (d : Date) (hd : d.Valid) : toRD d ≤ 366 * d.year := by
  obtain ⟨h1, h2, h3, h4, h5, h6⟩ := hd
  have hub := (monthDay_bounds d.year d.month d.day h3 h4 h5 h6).2
  have hyy := daysBeforeMonth_year d.year
  have hby := daysBeforeYear_le d.year
  simp only [toRD]
  split at hyy <;> omega

theorem toRD_maxDate_ge : 3649270 ≤ toRD maxDate := by
  have h := daysBeforeYear_ge 9999
  simp only [toRD, maxDate]
  omega

theorem date_le_refl (a : Date) : a ≤ a :=
  Or.inr ⟨rfl, Or.inr ⟨rfl, le_refl _⟩⟩

theorem date_le_of_lt {a b : Date} (h : a < b) : a ≤ b :=
  (date_le_iff_lt_or_eq a b).mpr (Or.inl h)

theorem date_lt_irrefl (a : Date) : ¬ a < a := by
  intro h
  rcases h with h | ⟨h1, h | ⟨h2, h⟩⟩ <;> omega

theorem replaceYear_some {d t : Date} {y : Nat} (h : replaceYear d y = some t) :
    t = ⟨y, d.month, d.day⟩ ∧ t.Valid := by
  unfold replaceYear at h
  split at h
  · cases h
    exact ⟨rfl, by assumption⟩
  · cases h

theorem getLast?_cons_of_ne_nil {α : Type} (a : α) {l : List α} (h : l ≠ []) :
    (a :: l).getLast? = l.getLast? := by
  match l, h with
  | b :: t, _ => rfl

/-- Every window appended by the loop ends no later than its iteration's
candidate end (the year-advanced date, or the 365×years fallback); the
clamp can only shorten it. Holds for any run that returns normally. -/
theorem splitGo_windows_bound (endDate : Date) (k : Nat) :
    ∀ fuel cur ws, splitGo endDate k fuel cur = .ok ws →
      ∀ w ∈ ws,
        (match replaceYear w.1 (w.1.year + k) with
         | some t => w.2 ≤ t
         | none => ∃ t, addDays w.1 (365 * k) = some t ∧ w.2 ≤ t) := by
  intro fuel
  induction fuel with
  | zero =>
    intro cur ws h
    simp [splitGo] at h
  | succ n ih =>
    intro cur ws h w hw
    rw [splitGo] at h
    by_cases hlt : cur < endDate
    · rw [if_pos hlt] at h
      cases hstep : stepCandidate cur k with
      | error e =>
        rw [hstep] at h
        cases h
      | ok t =>
        rw [hstep] at h
        dsimp only at h
        cases hrec : splitGo endDate k n (if endDate < t then endDate else t) with
        | error e =>
          rw [hrec] at h
          cases h
        | ok rest =>
          rw [hrec] at h
          cases h
          rcases List.mem_cons.mp hw with hw1 | hw2
          · subst hw1
            have hce : (if endDate < t then endDate else t) ≤ t := by
              by_cases hc : endDate < t
              · rw [if_pos hc]
                exact date_le_of_lt hc
              · rw [if_neg hc]
                exact date_le_refl t
            unfold stepCandidate at hstep
            cases hrep : replaceYear cur (cur.year + k) with
            | some t' =>
              rw [hrep] at hstep
              cases hstep
              simp only
              exact hce
            | none =>
              rw [hrep] at hstep
              cases hadd : addDays cur (365 * k) with
              | some t' =>
                rw [hadd] at hstep
                cases hstep
                simp only
                exact ⟨t, rfl, hce⟩
              | none =>
                rw [hadd] at hstep
                cases hstep
          · exact ih _ _ hrec w hw2
    · rw [if_neg hlt] at h
      cases h
      cases hw

/-- Core invariant of the splitting loop: starting strictly before
`endDate`, with a positive year interval and room below `date.max` for the
fallback, the loop returns a non-empty chain of windows running from the
cursor to `endDate`, adjacent windows sharing their boundary. -/
theorem splitGo_reconstructs (endDate : Date) (k : Nat) (he : endDate.Valid) (hk : 1 ≤ k)
    (hov : toRD endDate + 365 * k ≤ toRD maxDate) :
    ∀ fuel cur, cur.Valid → toRD endDate - toRD cur < fuel → cur < endDate →
      ∃ ws, splitGo endDate k fuel cur = .ok ws ∧ ws ≠ [] ∧
        ws.head?.map Prod.fst = some cur ∧ ws.getLast?.map Prod.snd = some endDate ∧
        List.Chain' (fun a b => a.2 = b.1) ws := by
  intro fuel
  induction fuel with
  | zero =>
    intro cur hv hfuel hlt
    have := toRD_lt_of_lt hv he hlt
    omega
  | succ n ih =>
    intro cur hv hfuel hlt
    have hrd : toRD cur < toRD endDate := toRD_lt_of_lt hv he hlt
    -- the candidate end of this iteration exists, is valid, and is strictly later
    have hcand : ∃ t, stepCandidate cur k = .ok t ∧ t.Valid ∧ toRD cur < toRD t := by
      unfold stepCandidate
      cases hrep : replaceYear cur (cur.year + k) with
      | some t =>
        obtain ⟨ht, htv⟩ := replaceYear_some hrep
        refine ⟨t, rfl, htv, ?_⟩
        have hlt' : cur < t := by
          subst ht
          exact Or.inl (show cur.year < cur.year + k by omega)
        exact toRD_lt_of_lt hv htv hlt'
      | none =>
        obtain ⟨t, hadd, htv, htr⟩ := addDays_spec (365 * k) cur hv (by omega)
        rw [hadd]
        exact ⟨t, rfl, htv, by omega⟩
    obtain ⟨t, hstep, htv, htrd⟩ := hcand
    rw [splitGo, if_pos hlt, hstep]
    dsimp only
    by_cases hc : endDate < t
    · -- clamp: this is the final window (cur, endDate)
      rw [if_pos hc]
      obtain ⟨m, hm⟩ : ∃ m, n = m + 1 := ⟨n - 1, by omega⟩
      subst hm
      rw [splitGo, if_neg (date_lt_irrefl endDate)]
      exact ⟨[(cur, endDate)], rfl, by simp, by simp, by simp, List.chain'_singleton _⟩
    · rw [if_neg hc]
      rcases date_trichotomy t endDate with hte | hte | hte
      · -- the candidate stays strictly inside: recurse from t
        have hrd2 : toRD t < toRD endDate := toRD_lt_of_lt htv he hte
        obtain ⟨rest, hrest, hne, hhead, hlast, hchain⟩ := ih t htv (by omega) hte
        rw [hrest]
        refine ⟨(cur, t) :: rest, rfl, by simp, by simp, ?_, ?_⟩
        · rw [getLast?_cons_of_ne_nil _ hne]
          exact hlast
        · obtain ⟨r, rest', hr⟩ : ∃ r rest', rest = r :: rest' := by
            cases rest with
            | nil => exact absurd rfl hne
            | cons r rest' => exact ⟨r, rest', rfl⟩
          subst hr
          have hrfst : r.1 = t := by
            simp at hhead
            exact hhead
          exact List.chain'_cons.mpr ⟨hrfst.symm, hchain⟩
      · -- the candidate lands exactly on endDate: final window (cur, t)
        subst hte
        obtain ⟨m, hm⟩ : ∃ m, n = m + 1 := ⟨n - 1, by omega⟩
        subst hm
        rw [splitGo, if_neg (date_lt_irrefl t)]
        exact ⟨[(cur, t)], rfl, by simp, by simp, by simp, List.chain'_singleton _⟩
      · exact absurd hte hc

/-- C1, counterexample: `split_date_range` does not return a window list for
every `start < end` and `interval_years > 0`. For 01/01/9999 → 31/12/9999
(interval 5), `replace(year = 10004)` raises `ValueError` (year out of
range), and the 365×5-day fallback from 01/01/9999 passes `date.max`, so
the uncaught `OverflowError` propagates and no windows are produced. -/
theorem split_overflow_raises :
    split_date_range ⟨9999, 1, 1⟩ ⟨9999, 12, 31⟩ 5 = .error .overflowError := by
  rfl

/-- C1 (amended): for valid dates `start < end` and `interval_years ≥ 1`,
provided `end` plus `365 * interval_years` days stays within the calendar
(otherwise the fallback overflows and `OverflowError` propagates), the
window list returned by `split_date_range` is non-empty and exactly
reconstructs `[start, end]`: the first window starts at `start`, the last
window ends at `end`, and each window's end equals the next window's
start. -/
theorem split_date_range_reconstructs (s e : Date) (k : Nat) (hs : s.Valid) (he : e.Valid)
    (hlt : s < e) (hk : 1 ≤ k) (hov : toRD e + 365 * k ≤ toRD maxDate) :
    ∃ ws, split_date_range s e k = .ok ws ∧ ws ≠ [] ∧
      ws.head?.map Prod.fst = some s ∧ ws.getLast?.map Prod.snd = some e ∧
      List.Chain' (fun a b => a.2 = b.1) ws :=
  splitGo_reconstructs e k he hk hov (366 * (e.year + 1)) s hs
    (by have := toRD_le e he; omega) hlt

/-- Witness for C1 (amended) at 01/01/2000 → 15/06/2001 with interval 5. -/
theorem split_date_range_reconstructs_witness :
    ∃ ws, split_date_range ⟨2000, 1, 1⟩ ⟨2001, 6, 15⟩ 5 = .ok ws ∧ ws ≠ [] ∧
      ws.head?.map Prod.fst = some ⟨2000, 1, 1⟩ ∧
      ws.getLast?.map Prod.snd = some ⟨2001, 6, 15⟩ ∧
      List.Chain' (fun a b => a.2 = b.1) ws :=
  split_date_range_reconstructs ⟨2000, 1, 1⟩ ⟨2001, 6, 15⟩ 5
    (by decide) (by decide) (by decide) (by decide)
    (by
      have h1 := toRD_le ⟨2001, 6, 15⟩ (by decide)
      have h2 := toRD_maxDate_ge
      simp only at h1
      omega)

/-- C2: every window returned by `split_date_range` ends no later than its
start advanced by `interval_years` calendar years (`replace`), or — when
that advancement is undefined for the start's day — no later than its
start plus `365 * interval_years` days; in particular the final window may
be shorter because it is clamped to `end`. -/
theorem split_date_range_window_bound (s e : Date) (k : Nat) (ws : List (Date × Date))
    (hs : s.Valid) (he : e.Valid) (hlt : s < e) (hk : 1 ≤ k)
    (hok : split_date_range s e k = .ok ws) :
    ∀ w ∈ ws,
      (match replaceYear w.1 (w.1.year + k) with
       | some t => w.2 ≤ t
       | none => ∃ t, addDays w.1 (365 * k) = some t ∧ w.2 ≤ t) :=
  splitGo_windows_bound e k _ s ws hok

/-- Witness for C2 on the first window of the 2000 → 2012 split. -/
theorem split_date_range_window_bound_witness :
    (match replaceYear ⟨2000, 1, 1⟩ ((⟨2000, 1, 1⟩ : Date).year + 5) with
     | some t => (⟨2005, 1, 1⟩ : Date) ≤ t
     | none => ∃ t, addDays ⟨2000, 1, 1⟩ (365 * 5) = some t ∧ (⟨2005, 1, 1⟩ : Date) ≤ t) :=
  split_date_range_window_bound ⟨2000, 1, 1⟩ ⟨2012, 1, 1⟩ 5
    [(⟨2000, 1, 1⟩, ⟨2005, 1, 1⟩), (⟨2005, 1, 1⟩, ⟨2010, 1, 1⟩), (⟨2010, 1, 1⟩, ⟨2012, 1, 1⟩)]
    (by decide) (by decide) (by decide) (by decide) rfl
    (⟨2000, 1, 1⟩, ⟨2005, 1, 1⟩) (by decide)

/-- C3, counterexample: 2016 + 4 = 2020 is a leap year, so
`date(2016, 2, 29).replace(year = 2020)` is defined and the first step does
not use the 365×4-day fallback: the first window's end is 29/02/2020,
whereas 29/02/2016 + 1460 days is 28/02/2020. -/
theorem split_leap2016_counterexample :
    split_date_range ⟨2016, 2, 29⟩ ⟨2024, 2, 29⟩ 4 =
      .ok [(⟨2016, 2, 29⟩, ⟨2020, 2, 29⟩), (⟨2020, 2, 29⟩, ⟨2024, 2, 29⟩)] ∧
    addDays ⟨2016, 2, 29⟩ (365 * 4) = some ⟨2020, 2, 28⟩ ∧
    (⟨2020, 2, 29⟩ : Date) ≠ ⟨2020, 2, 28⟩ :=
  ⟨rfl, rfl, by decide⟩

/-- C3 (amended): splitting 29/02/2016 → 29/02/2024 with `interval_years = 4`
does not trigger the fallback: `2016-02-29 + 4 years` is defined (2020 is a
leap year), so the first window's end is 29/02/2020, obtained by
`replace(year = 2020)`, and no error is raised. -/
theorem split_leap2016_uses_replace :
    replaceYear ⟨2016, 2, 29⟩ ((⟨2016, 2, 29⟩ : Date).year + 4) = some ⟨2020, 2, 29⟩ ∧
    split_date_range ⟨2016, 2, 29⟩ ⟨2024, 2, 29⟩ 4 =
      .ok [(⟨2016, 2, 29⟩, ⟨2020, 2, 29⟩), (⟨2020, 2, 29⟩, ⟨2024, 2, 29⟩)] :=
  ⟨rfl, rfl⟩

/-- C10: for `start_date ≥ end_date` the `while current_start < end_date`
guard is false at once, so `split_date_range` returns the empty window list
and raises nothing. -/
theorem split_date_range_empty_of_ge (s e : Date) (k : Nat) (h : e ≤ s) :
    split_date_range s e k = .ok [] := by
  unfold split_date_range
  obtain ⟨m, hm⟩ : ∃ m, 366 * (e.year + 1) = m + 1 := ⟨366 * (e.year + 1) - 1, by omega⟩
  rw [hm, splitGo, if_neg (date_not_lt_of_le h)]

/-- Witness for C10 at equal start and end dates. -/
theorem split_date_range_empty_of_ge_witness :
    split_date_range ⟨2020, 5, 1⟩ ⟨2020, 5, 1⟩ 5 = .ok [] :=
  split_date_range_empty_of_ge ⟨2020, 5, 1⟩ ⟨2020, 5, 1⟩ 5 (by decide)

/-! ## Daily coverage of the BCB/SGS windows (claim C7's scenario) -/

/-- The inclusive run of calendar days starting at `d`, `n + 1` days long
(stopping early only at `date.max`). -/
def daysRangeGo : Nat → Date → List Date
  | 0, d => [d]
  | n + 1, d =>
    d :: (match nextDay d with
          | some e => daysRangeGo n e
          | none => [])

/-- All calendar days in the inclusive window `[s, e]` — what one daily
BCB/SGS sub-window fetch returns under the claim's assumption that the API
delivers exactly the days `dataInicial ≤ day ≤ dataFinal`. -/
def daysRange (s e : Date) : List Date := daysRangeGo (toRD e - toRD s) s

/-- The rows of `pd.concat(resposta)` in `coleta_bcb_sgs` under that
assumption: the per-window day lists, concatenated in window order. -/
def sgs_window_days (ws : List (Date × Date)) : List Date :=
  (ws.map (fun w => daysRange w.1 w.2)).join

theorem self_mem_daysRangeGo (n : Nat) (d : Date) : d ∈ daysRangeGo n d := by
  cases n <;> simp [daysRangeGo]

theorem self_mem_daysRange (s e : Date) : s ∈ daysRange s e :=
  self_mem_daysRangeGo _ s

/-- Membership in a day run is exactly the day-index interval. -/
theorem mem_daysRangeGo (n : Nat) :
    ∀ s : Date, s.Valid → toRD s + n ≤ toRD maxDate →
      ∀ d : Date, d ∈ daysRangeGo n s ↔
        (d.Valid ∧ toRD s ≤ toRD d ∧ toRD d ≤ toRD s + n) := by
  induction n with
  | zero =>
    intro s hs _ d
    simp only [daysRangeGo, List.mem_singleton]
    constructor
    · rintro rfl
      exact ⟨hs, le_refl _, by omega⟩
    · rintro ⟨hv, h1, h2⟩
      exact toRD_inj hv hs (by omega)
  | succ n ih =>
    intro s hs hle d
    rcases nextDay_spec s hs with ⟨hmax, _⟩ | ⟨e, hsome, hev, herd⟩
    · subst hmax
      omega
    · have hrec := ih e hev (by omega) d
      simp only [daysRangeGo, hsome, List.mem_cons]
      constructor
      · rintro (rfl | hmem)
        · exact ⟨hs, le_refl _, by omega⟩
        · obtain ⟨hv, h1, h2⟩ := hrec.mp hmem
          exact ⟨hv, by omega, by omega⟩
      · rintro ⟨hv, h1, h2⟩
        rcases Nat.eq_or_lt_of_le h1 with heq | hlt
        · exact Or.inl (toRD_inj hv hs (by omega))
        · exact Or.inr (hrec.mpr ⟨hv, by omega, by omega⟩)

theorem mem_daysRange {s e d : Date} (hs : s.Valid) (he : e.Valid)
    (hse : toRD s ≤ toRD e) (hmax : toRD e ≤ toRD maxDate) :
    d ∈ daysRange s e ↔ (d.Valid ∧ toRD s ≤ toRD d ∧ toRD d ≤ toRD e) := by
  unfold daysRange
  rw [mem_daysRangeGo (toRD e - toRD s) s hs (by omega) d]
  constructor <;> rintro ⟨h1, h2, h3⟩ <;> exact ⟨h1, h2, by omega⟩

theorem toRD_le_maxDate_of_year (d : Date) (hd : d.Valid) (hy : d.year ≤ 9000) :
    toRD d ≤ toRD maxDate := by
  have h1 := toRD_le d hd
  have h2 := toRD_maxDate_ge
  omega

/-- The six windows `split_date_range` produces for the 30-year span
01/01/1990 → 01/01/2020 with the default 5-year interval. -/
def sgsWindows1990 : List (Date × Date) :=
  [(⟨1990, 1, 1⟩, ⟨1995, 1, 1⟩), (⟨1995, 1, 1⟩, ⟨2000, 1, 1⟩),
   (⟨2000, 1, 1⟩, ⟨2005, 1, 1⟩), (⟨2005, 1, 1⟩, ⟨2010, 1, 1⟩),
   (⟨2010, 1, 1⟩, ⟨2015, 1, 1⟩), (⟨2015, 1, 1⟩, ⟨2020, 1, 1⟩)]

/-- The interior boundary day 01/01/1995 is fetched by both the first
window (as its inclusive end) and the second (as its inclusive start). -/
theorem sgs1990_boundary_count :
    2 ≤ (sgs_window_days sgsWindows1990).count ⟨1995, 1, 1⟩ := by
  have v90 : (⟨1990, 1, 1⟩ : Date).Valid := by decide
  have v95 : (⟨1995, 1, 1⟩ : Date).Valid := by decide
  have r90 : toRD ⟨1990, 1, 1⟩ ≤ toRD ⟨1995, 1, 1⟩ := toRD_le_of_le v90 v95 (by decide)
  have m95 : toRD ⟨1995, 1, 1⟩ ≤ toRD maxDate := toRD_le_maxDate_of_year _ v95 (by decide)
  have h1 : (⟨1995, 1, 1⟩ : Date) ∈ daysRange ⟨1990, 1, 1⟩ ⟨1995, 1, 1⟩ :=
    (mem_daysRange v90 v95 r90 m95).mpr ⟨v95, r90, le_refl _⟩
  have h2 : (⟨1995, 1, 1⟩ : Date) ∈ daysRange ⟨1995, 1, 1⟩ ⟨2000, 1, 1⟩ :=
    self_mem_daysRange _ _
  have hc1 := List.count_pos_iff.mpr h1
  have hc2 := List.count_pos_iff.mpr h2
  have hsplit : sgs_window_days sgsWindows1990 =
      daysRange ⟨1990, 1, 1⟩ ⟨1995, 1, 1⟩ ++ (daysRange ⟨1995, 1, 1⟩ ⟨2000, 1, 1⟩ ++
        (daysRange ⟨2000, 1, 1⟩ ⟨2005, 1, 1⟩ ++ (daysRange ⟨2005, 1, 1⟩ ⟨2010, 1, 1⟩ ++
          (daysRange ⟨2010, 1, 1⟩ ⟨2015, 1, 1⟩ ++
            (daysRange ⟨2015, 1, 1⟩ ⟨2020, 1, 1⟩ ++ []))))) := rfl
  rw [hsplit]
  simp only [List.count_append, List.count_nil]
  omega

/-- C7, counterexample: for the 30-year daily span 01/01/1990 → 01/01/2020
(default 5-year interval), even assuming each sub-window fetch returns
exactly the calendar days of its inclusive window, the concatenated result
does not contain every day exactly once: the interior boundary 01/01/1995
is the inclusive end of the first window and the inclusive start of the
second, so it occurs at least twice. -/
theorem sgs_concat_duplicates_boundary :
    split_date_range ⟨1990, 1, 1⟩ ⟨2020, 1, 1⟩ 5 = .ok sgsWindows1990 ∧
      2 ≤ (sgs_window_days sgsWindows1990).count ⟨1995, 1, 1⟩ :=
  ⟨rfl, sgs1990_boundary_count⟩

/-- C7 (amended): the 30-year daily span 01/01/1990 → 01/01/2020 with the
default 5-year interval produces 6 (≥ 2) sub-window fetch requests;
assuming each window fetch returns exactly the calendar days of its
inclusive window, the concatenated result contains every calendar day of
the requested span at least once, but interior window-boundary days such
as 01/01/1995 occur at least twice (adjacent windows share their inclusive
boundary), so the concatenation is not duplicate-free. -/
theorem sgs_thirty_year_coverage :
    ∃ ws, split_date_range ⟨1990, 1, 1⟩ ⟨2020, 1, 1⟩ 5 = .ok ws ∧ 2 ≤ ws.length ∧
      (∀ d : Date, d.Valid → ⟨1990, 1, 1⟩ ≤ d → d ≤ ⟨2020, 1, 1⟩ →
        d ∈ sgs_window_days ws) ∧
      2 ≤ (sgs_window_days ws).count ⟨1995, 1, 1⟩ := by
  refine ⟨sgsWindows1990, rfl, by decide, ?_, sgs1990_boundary_count⟩
  intro d hv h90 h20
  have v90 : (⟨1990, 1, 1⟩ : Date).Valid := by decide
  have v95 : (⟨1995, 1, 1⟩ : Date).Valid := by decide
  have v00 : (⟨2000, 1, 1⟩ : Date).Valid := by decide
  have v05 : (⟨2005, 1, 1⟩ : Date).Valid := by decide
  have v10 : (⟨2010, 1, 1⟩ : Date).Valid := by decide
  have v15 : (⟨2015, 1, 1⟩ : Date).Valid := by decide
  have v20 : (⟨2020, 1, 1⟩ : Date).Valid := by decide
  have r0 : toRD ⟨1990, 1, 1⟩ ≤ toRD ⟨1995, 1, 1⟩ := toRD_le_of_le v90 v95 (by decide)
  have r1 : toRD ⟨1995, 1, 1⟩ ≤ toRD ⟨2000, 1, 1⟩ := toRD_le_of_le v95 v00 (by decide)
  have r2 : toRD ⟨2000, 1, 1⟩ ≤ toRD ⟨2005, 1, 1⟩ := toRD_le_of_le v00 v05 (by decide)
  have r3 : toRD ⟨2005, 1, 1⟩ ≤ toRD ⟨2010, 1, 1⟩ := toRD_le_of_le v05 v10 (by decide)
  have r4 : toRD ⟨2010, 1, 1⟩ ≤ toRD ⟨2015, 1, 1⟩ := toRD_le_of_le v10 v15 (by decide)
  have r5 : toRD ⟨2015, 1, 1⟩ ≤ toRD ⟨2020, 1, 1⟩ := toRD_le_of_le v15 v20 (by decide)
  have m95 : toRD ⟨1995, 1, 1⟩ ≤ toRD maxDate := toRD_le_maxDate_of_year _ v95 (by decide)
  have m00 : toRD ⟨2000, 1, 1⟩ ≤ toRD maxDate := toRD_le_maxDate_of_year _ v00 (by decide)
  have m05 : toRD ⟨2005, 1, 1⟩ ≤ toRD maxDate := toRD_le_maxDate_of_year _ v05 (by decide)
  have m10 : toRD ⟨2010, 1, 1⟩ ≤ toRD maxDate := toRD_le_maxDate_of_year _ v10 (by decide)
  have m15 : toRD ⟨2015, 1, 1⟩ ≤ toRD maxDate := toRD_le_maxDate_of_year _ v15 (by decide)
  have m20 : toRD ⟨2020, 1, 1⟩ ≤ toRD maxDate := toRD_le_maxDate_of_year _ v20 (by decide)
  have hd90 : toRD ⟨1990, 1, 1⟩ ≤ toRD d := (toRD_le_iff v90 hv).mp h90
  have hd20 : toRD d ≤ toRD ⟨2020, 1, 1⟩ := (toRD_le_iff hv v20).mp h20
  have hsplit : sgs_window_days sgsWindows1990 =
      daysRange ⟨1990, 1, 1⟩ ⟨1995, 1, 1⟩ ++ (daysRange ⟨1995, 1, 1⟩ ⟨2000, 1, 1⟩ ++
        (daysRange ⟨2000, 1, 1⟩ ⟨2005, 1, 1⟩ ++ (daysRange ⟨2005, 1, 1⟩ ⟨2010, 1, 1⟩ ++
          (daysRange ⟨2010, 1, 1⟩ ⟨2015, 1, 1⟩ ++
            (daysRange ⟨2015, 1, 1⟩ ⟨2020, 1, 1⟩ ++ []))))) := rfl
  rw [hsplit]
  simp only [List.mem_append, List.not_mem_nil, or_false]
  by_cases c1 : toRD d ≤ toRD ⟨1995, 1, 1⟩
  · exact Or.inl ((mem_daysRange v90 v95 r0 m95).mpr ⟨hv, hd90, c1⟩)
  by_cases c2 : toRD d ≤ toRD ⟨2000, 1, 1⟩
  · exact Or.inr (Or.inl ((mem_daysRange v95 v00 r1 m00).mpr ⟨hv, by omega, c2⟩))
  by_cases c3 : toRD d ≤ toRD ⟨2005, 1, 1⟩
  · exact Or.inr (Or.inr (Or.inl ((mem_daysRange v00 v05 r2 m05).mpr ⟨hv, by omega, c3⟩)))
  by_cases c4 : toRD d ≤ toRD ⟨2010, 1, 1⟩
  · exact Or.inr (Or.inr (Or.inr (Or.inl
      ((mem_daysRange v05 v10 r3 m10).mpr ⟨hv, by omega, c4⟩))))
  by_cases c5 : toRD d ≤ toRD ⟨2015, 1, 1⟩
  · exact Or.inr (Or.inr (Or.inr (Or.inr (Or.inl
      ((mem_daysRange v10 v15 r4 m15).mpr ⟨hv, by omega, c5⟩)))))
  exact Or.inr (Or.inr (Or.inr (Or.inr (Or.inr
    ((mem_daysRange v15 v20 r5 m20).mpr ⟨hv, by omega, hd20⟩)))))

/-- Witness for C7 (amended): the coverage part instantiated at the
mid-span day 15/07/2003. -/
theorem sgs_thirty_year_coverage_witness :
    ∃ ws, split_date_range ⟨1990, 1, 1⟩ ⟨2020, 1, 1⟩ 5 = .ok ws ∧
      (⟨2003, 7, 15⟩ : Date) ∈ sgs_window_days ws := by
  obtain ⟨ws, h1, _, h3, _⟩ := sgs_thirty_year_coverage
  exact ⟨ws, h1, h3 ⟨2003, 7, 15⟩ (by decide) (by decide) (by decide)⟩

/-! ## The resilient reader `ler_csv` (02-funcoes.py, lines 9-27) -/

/-- Outcome of one `ler_csv` run: the value returned, the final value of
the `tentativas` counter (incremented once per caught failure), and the
number of `pd.read_csv` calls issued. -/
structure FetchResult (α : Type) where
  result : Option α
  failures : Nat
  calls : Nat
deriving DecidableEq

/-- The `while tentativas < max_tentativas` loop of `ler_csv`. `read t`
is the outcome of the `pd.read_csv` call made when `tentativas = t`:
`some df` for a successful parse, `none` when it raises (the bare
`except Exception` catches, logs and sleeps). The fuel argument is
`max_tentativas - tentativas`, so the loop runs while `tentativas < 5`. -/
def lerCsvGo {α : Type} (read : Nat → Option α) : Nat → Nat → FetchResult α
  | 0, t => ⟨none, t, t⟩
  | fuel + 1, t =>
    match read t with
    | some df => ⟨some df, t, t + 1⟩
    | none => lerCsvGo read fuel (t + 1)

/-- Models `ler_csv(*args, **kwargs)` with `max_tentativas = 5`: returns the first
successful `pd.read_csv` result, or `None` after 5 failed attempts. It is
a total function — no exception escapes it (the 2-second `intervalo` sleep
has no observable effect here and is elided). -/
def ler_csv {α : Type} (read : Nat → Option α) : FetchResult α :=
  lerCsvGo read 5 0

/-- C4: if `pd.read_csv` raises on every call, `ler_csv` makes exactly 5
read attempts, records 5 failures, and returns `None` — the explicit
"no data" outcome — rather than propagating any exception (it is total:
every invocation returns a `FetchResult`). -/
theorem ler_csv_exhausts_five {α : Type} (read : Nat → Option α)
    (h : ∀ n, read n = none) :
    ler_csv read = ⟨none, 5, 5⟩ := by
  simp [ler_csv, lerCsvGo, h]

/-- Witness for C4 with an always-failing read. -/
theorem ler_csv_exhausts_five_witness :
    ler_csv (fun _ : Nat => (none : Option Nat)) = ⟨none, 5, 5⟩ :=
  ler_csv_exhausts_five _ (fun _ => rfl)

/-- C5: if the read fails on attempts 0 and 1 and succeeds on attempt 2,
`ler_csv` returns that parsed table with the `tentativas` counter at 2
(exactly 2 recorded failures) after exactly 3 read calls; the behaviour of
`read` on later attempts is irrelevant (no further calls happen). -/
theorem ler_csv_succeeds_third {α : Type} (read : Nat → Option α) (df : α)
    (h0 : read 0 = none) (h1 : read 1 = none) (h2 : read 2 = some df) :
    ler_csv read = ⟨some df, 2, 3⟩ := by
  simp [ler_csv, lerCsvGo, h0, h1, h2]

/-- Witness for C5 with a read failing twice then succeeding. -/
theorem ler_csv_succeeds_third_witness :
    ler_csv (fun n : Nat => if n < 2 then (none : Option Nat) else some 7) =
      ⟨some 7, 2, 3⟩ :=
  ler_csv_succeeds_third _ 7 rfl rfl rfl

/-! ## Source adapters (02-funcoes.py, lines 30-161)

Adapters are parametrized by the behaviour of their underlying fetch.
`ler_csv`-based adapters receive the per-attempt outcomes of `pd.read_csv`
(`ler_csv` itself never raises); `pd.read_json`-based adapters receive the
outcome of the single `read_json` call (`.error` = the call raises).
Data tables are abstracted to what the claims inspect: column-name lists
for the ODATA adapter, `(date, value)` row lists for IPEADATA/SIDRA. -/

/-- Models `DataFrame.rename(columns = {old: new})` on a table abstracted to its
column names. -/
def renameCols (cols : List String) (old new : String) : List String :=
  cols.map (fun c => if c = old then new else c)

/-- Models `coleta_bcb_odata(codigo, nome)`: the guarded try-block holds only the
`print` and the `ler_csv` call — neither raises — so the `except` arm that
would raise the domain error is unreachable. When every read attempt
fails, `ler_csv` returns `None` and the `else`-clause
`resposta.rename(columns = {"Mediana": nome})`, executed outside the
guard, raises a raw `AttributeError`. -/
def coleta_bcb_odata (read : Nat → Option (List String)) (codigo nome : String) :
    Except PyError (List String) :=
  match (ler_csv read).result with
  | some df => .ok (renameCols df ("Mediana") nome)
  | none => .error (.attributeError ("NoneType object has no attribute rename"))

/-- Models `coleta_ipeadata(codigo, nome)`: `pd.read_json` sits inside the guard,
so a raising fetch becomes the domain error. The `else`-clause flattens
`resposta["value"]` and renames `VALDATA`/`VALVALOR` — on the

`(date, value)` row abstraction this is the identity; a response without
the `value` column raises a raw `KeyError` outside the guard (modeled by
the inner `Option`). -/
def coleta_ipeadata (readJson : Except String (Option (List (String × String))))
    (codigo nome : String) : Except PyError (List (String × String)) :=
  match readJson with
  | .error _ => .error (.domainError (s!"Falha na coleta da série {codigo} ({nome})"))
  | .ok none => .error (.keyError ("value"))
  | .ok (some records) => .ok records

/-- Models `coleta_fred(codigo, nome)`: like the ODATA adapter, its guarded
try-block holds only the `print` and the `ler_csv` call, so a fetch that
returns no data leads to a raw `AttributeError` from the unguarded
`else`-clause `resposta.rename(...)`. -/
def coleta_fred (read : Nat → Option (List String)) (codigo nome : String) :
    Except PyError (List String) :=
  match (ler_csv read).result with
  | some df => .ok (renameCols (renameCols df ("DATE") ("data")) codigo nome)
  | none => .error (.attributeError ("NoneType object has no attribute rename"))

/-- The placeholder tokens dropped by the SIDRA adapter before numeric
coercion: `df[-df[nome].isin(["Valor", "...", "-"])]`. -/
def sidraPlaceholders : List String := ["Valor", "...", "-"]

/-- Numeric value of a digit string. -/
def digitsVal (l : List Char) : Nat :=
  l.foldl (fun a c => a * 10 + (c.toNat - 48)) 0

/-- Models `pd.to_numeric` on one cell, modeled for the non-negative integer
literals these claims exercise; a non-numeric cell makes the coercion
raise (`errors='raise'` is the pandas default). -/
def toNumeric (s : String) : Option ℚ :=
  if s.toList ≠ [] ∧ s.toList.all Char.isDigit then
    some ((digitsVal s.toList : Nat) : ℚ)
  else none

/-- Models `coleta_ibge_sidra(codigo, nome)`: a raising `pd.read_json` becomes the
domain error; otherwise the rows (already projected to their
`D3C`-renamed-`data` and `V`-renamed-`nome` columns) are filtered of
placeholder values and coerced to numbers. A remaining non-numeric value
makes `pd.to_numeric` raise a raw `ValueError` outside the guard. -/
def coleta_ibge_sidra (readJson : Except String (List (String × String)))
    (codigo nome : String) : Except PyError (List (String × ℚ)) :=
  match readJson with
  | .error _ => .error (.domainError (s!"Falha na coleta da série {codigo} ({nome})"))
  | .ok rows =>
    match (rows.filter (fun r => !(sidraPlaceholders.contains r.2))).mapM
        (fun r => (toNumeric r.2).map (fun q => (r.1, q))) with
    | some out => .ok out
    | none => .error (.valueError ("Unable to parse string"))

/-- C6, counterexample: when every underlying read fails, the ODATA adapter
does not raise the domain error: `ler_csv` returns `None` without raising,
the `except` arm never runs, and the caller observes the raw
`AttributeError` from `None.rename(...)` in the unguarded `else`-clause. -/
theorem odata_no_data_raw_error :
    coleta_bcb_odata (fun _ => none) ("url-odata") ("expectativa") =
        .error (.attributeError ("NoneType object has no attribute rename")) ∧
      Except.error (PyError.attributeError ("NoneType object has no attribute rename")) ≠
        (Except.error (PyError.domainError ("Falha na coleta da série url-odata (expectativa)")) :
          Except PyError (List String)) :=
  ⟨rfl, by intro h; cases h⟩

/-- C6 (amended): an adapter raises the single domain error
`Falha na coleta da série {codigo} ({nome})` exactly when its guarded
try-block raises — as the `pd.read_json`-based IPEADATA and SIDRA adapters
do on a raising fetch. But when the fetch returns no data through
`ler_csv` (which never raises), the `except` arm is dead code and the
schema normalization in the unguarded `else`-clause raises a raw
`AttributeError` on `None` — as in the ODATA and FRED adapters under total
fetch failure — so callers can observe raw exceptions. -/
theorem adapter_error_policy :
    (∀ e codigo nome : String,
      coleta_ipeadata (.error e) codigo nome =
        .error (.domainError (s!"Falha na coleta da série {codigo} ({nome})"))) ∧
    (∀ e codigo nome : String,
      coleta_ibge_sidra (.error e) codigo nome =
        .error (.domainError (s!"Falha na coleta da série {codigo} ({nome})"))) ∧
    (∀ (read : Nat → Option (List String)) (codigo nome : String), (∀ n, read n = none) →
      coleta_bcb_odata read codigo nome =
        .error (.attributeError ("NoneType object has no attribute rename"))) ∧
    (∀ (read : Nat → Option (List String)) (codigo nome : String), (∀ n, read n = none) →
      coleta_fred read codigo nome =
        .error (.attributeError ("NoneType object has no attribute rename"))) := by
  refine ⟨fun e codigo nome => rfl, fun e codigo nome => rfl,
    fun read codigo nome h => ?_, fun read codigo nome h => ?_⟩ <;>
    · have hres : ler_csv read = ⟨none, 5, 5⟩ := by simp [ler_csv, lerCsvGo, h]
      simp only [coleta_bcb_odata, coleta_fred, hres]

/-- Witness for C6 (amended) at concrete fetch behaviours. -/
theorem adapter_error_policy_witness :
    coleta_ipeadata (.error ("timeout")) ("BM12") ("selic") =
        .error (.domainError ("Falha na coleta da série BM12 (selic)")) ∧
      coleta_bcb_odata (fun _ => none) ("u") ("m") =
        .error (.attributeError ("NoneType object has no attribute rename")) :=
  ⟨adapter_error_policy.1 ("timeout") ("BM12") ("selic"),
    adapter_error_policy.2.2.1 (fun _ => none) ("u") ("m") (fun _ => rfl)⟩

/-- C9: the SIDRA adapter drops every row whose value is a placeholder
token (`"Valor"`, `"..."`, `"-"`) before numeric coercion; on the fetched
rows `[("2020-01","100"), ("2020-02","..."), ("2020-03","-")]` exactly one
numeric row survives, mapping `2020-01` to `100`. -/
theorem sidra_drops_placeholders :
    coleta_ibge_sidra (.ok [("2020-01", "100"), ("2020-02", "..."), ("2020-03", "-")])
      ("t1737") ("ipca") = .ok [("2020-01", (100 : ℚ))] :=
  rfl

/-! ## The collection dispatch of 03-coleta.py (claim C8) -/

/-- One row of the metadata spreadsheet: `Fonte`, `Forma de Coleta`,
`Input de Coleta`, `Identificador`, `Frequência` (all read as strings). -/
structure MetaRow where
  fonte : String
  formaDeColeta : String
  inputDeColeta : String
  identificador : String
  frequencia : String
deriving DecidableEq

/-- Models `df_metadados.query("Fonte == '<fonte>' and `Forma de Coleta` == 'API'")`. -/
def apiFilter (rows : List MetaRow) (fonte : String) : List MetaRow :=
  rows.filter (fun r => r.fonte == fonte && r.formaDeColeta == "API")

/-- The per-row loop of one frequency-bucketed section: each filtered row
is passed to the adapter (modeled as succeeding — adapter failures are the
other claims' concern) and its result appended to
`df_bruto[row.frequencia]`; a frequency outside the dict's keys raises
`KeyError`, aborting the script. Returns the rows handed to the adapter
and the outcome. -/
def sectionGo (keys : List String) : List MetaRow → List MetaRow →
    List MetaRow × Except PyError Unit
  | [], invoked => (invoked, .ok ())
  | r :: rest, invoked =>
    if keys.contains r.frequencia then sectionGo keys rest (invoked ++ [r])
    else (invoked ++ [r], .error (.keyError r.frequencia))

/-- A frequency-bucketed collection section (BCB/SGS, IPEADATA, IBGE/SIDRA,
FRED), with the bucket keys of its `df_bruto_*` dictionary. -/
def bucketSection (rows : List MetaRow) (fonte : String) (keys : List String) :
    List MetaRow × Except PyError Unit :=
  sectionGo keys (apiFilter rows fonte) []

/-- The BCB/ODATA section accumulates into a plain list (no frequency
dictionary), so its loop cannot raise. -/
def odataSection (rows : List MetaRow) : List MetaRow × Except PyError Unit :=
  (apiFilter rows ("BCB/ODATA"), .ok ())

/-- The IFI section filters only on `Fonte == 'IFI'` (no collection-method
check) and unconditionally reads row 0 of the filtered frame: with no IFI
row present, the `[0]` lookup raises `KeyError`. -/
def ifiSection (rows : List MetaRow) : List MetaRow × Except PyError Unit :=
  match rows.filter (fun r => r.fonte == "IFI") with
  | [] => ([], .error (.keyError ("0")))
  | r :: _ => ([r], .ok ())

/-- Runs the script's sections in order, stopping at the first uncaught
exception, accumulating the rows handed to adapters. -/
def seqSections : List (List MetaRow × Except PyError Unit) →
    List MetaRow × Except PyError Unit
  | [] => ([], .ok ())
  | (inv, .error e) :: _ => (inv, .error e)
  | (inv, .ok _) :: rest =>
    match seqSections rest with
    | (inv2, res) => (inv ++ inv2, res)

/-- The whole dispatch of `03-coleta.py` over the metadata rows, in script
order: BCB/SGS, BCB/ODATA, IPEADATA, IBGE/SIDRA, FRED, IFI. The first
component lists every row for which an adapter was invoked (in order) up
to the first failure; the second is the script outcome. -/
def coleta_run (rows : List MetaRow) : List MetaRow × Except PyError Unit :=
  seqSections
    [bucketSection rows ("BCB/SGS") ["Diária", "Mensal", "Trimestral", "Anual"],
     odataSection rows,
     bucketSection rows ("IPEADATA") ["Diária", "Mensal"],
     bucketSection rows ("IBGE/SIDRA") ["Mensal", "Trimestral"],
     bucketSection rows ("FRED") ["Diária", "Mensal", "Trimestral"],
     ifiSection rows]

/-- C8, counterexample: a metadata row with the recognized source
`IPEADATA` (collected via API) but the unbucketed frequency `Anual` — a
source/frequency combination that is not among the recognized ones — is
not silently skipped: the IPEADATA adapter is invoked for it, and the
subsequent `df_bruto_ipeadata[...]` bucket lookup raises `KeyError`,
aborting the run. -/
theorem orchestrator_keyerror_on_unbucketed_freq :
    coleta_run [⟨"IPEADATA", "API", "BM12_TJOVER12", "juros", "Anual"⟩] =
      ([⟨"IPEADATA", "API", "BM12_TJOVER12", "juros", "Anual"⟩],
        .error (.keyError ("Anual"))) :=
  rfl

theorem apiFilter_pair_skip (r ifiRow : MetaRow) (f : String)
    (hr : ¬(r.fonte = f ∧ r.formaDeColeta = "API")) (hi : ifiRow.fonte ≠ f) :
    apiFilter [r, ifiRow] f = [] := by
  have h1 : (r.fonte == f && r.formaDeColeta == "API") = false := by
    by_cases ha : r.fonte = f
    · have hb : r.formaDeColeta ≠ "API" := fun hb => hr ⟨ha, hb⟩
      simp [ha, hb]
    · simp [ha]
  have h2 : (ifiRow.fonte == f && ifiRow.formaDeColeta == "API") = false := by
    simp [hi]
  simp [apiFilter, List.filter_cons, h1, h2]

/-- C8 (amended): a metadata row matching no section filter — its source
is none of the six recognized ones, or its collection method is not `API`
for the five API-driven sources — is silently skipped: no adapter is
invoked for it, nothing is bucketed for it, and no error arises from it
(provided the metadata still holds an IFI row, which the IFI section
unconditionally indexes). A row whose source filter matches but whose
frequency lies outside that source's buckets is, by contrast, collected
and then aborts the run with a `KeyError` (see the counterexample). -/
theorem orchestrator_skips_unmatched_rows (r ifiRow : MetaRow)
    (hsrc : ¬(r.fonte ∈ ["BCB/SGS", "BCB/ODATA", "IPEADATA", "IBGE/SIDRA", "FRED"] ∧
      r.formaDeColeta = "API"))
    (hifi : r.fonte ≠ "IFI") (hifiRow : ifiRow.fonte = "IFI") :
    coleta_run [r, ifiRow] = ([ifiRow], .ok ()) ∧ r ∉ (coleta_run [r, ifiRow]).1 := by
  have hr : ∀ f : String, f ∈ (["BCB/SGS", "BCB/ODATA", "IPEADATA", "IBGE/SIDRA", "FRED"] :
      List String) → ¬(r.fonte = f ∧ r.formaDeColeta = "API") := by
    intro f hf hc
    exact hsrc ⟨hc.1 ▸ hf, hc.2⟩
  have hif : ∀ f : String, f ≠ "IFI" → ifiRow.fonte ≠ f := by
    intro f hne heq
    exact hne (heq.symm.trans hifiRow)
  have hf1 := apiFilter_pair_skip r ifiRow ("BCB/SGS") (hr _ (by simp)) (hif _ (by decide))
  have hf2 := apiFilter_pair_skip r ifiRow ("BCB/ODATA") (hr _ (by simp)) (hif _ (by decide))
  have hf3 := apiFilter_pair_skip r ifiRow ("IPEADATA") (hr _ (by simp)) (hif _ (by decide))
  have hf4 := apiFilter_pair_skip r ifiRow ("IBGE/SIDRA") (hr _ (by simp)) (hif _ (by decide))
  have hf5 := apiFilter_pair_skip r ifiRow ("FRED") (hr _ (by simp)) (hif _ (by decide))
  have hifisec : ifiSection [r, ifiRow] = ([ifiRow], .ok ()) := by
    have h1 : (r.fonte == "IFI") = false := by simp [hifi]
    have h2 : (ifiRow.fonte == "IFI") = true := by simp [hifiRow]
    simp [ifiSection, List.filter_cons, h1, h2]
  have hrun : coleta_run [r, ifiRow] = ([ifiRow], .ok ()) := by
    simp [coleta_run, bucketSection, odataSection, hf1, hf2, hf3, hf4, hf5, hifisec,
      sectionGo, seqSections]
  refine ⟨hrun, ?_⟩
  rw [hrun]
  simp only [List.mem_singleton]
  intro heq
  subst heq
  exact hifi hifiRow

/-- Witness for C8 (amended): a manually-collected row plus an IFI row. -/
theorem orchestrator_skips_unmatched_rows_witness :
    coleta_run [⟨"B3", "Manual", "x", "y", "Mensal"⟩, ⟨"IFI", "Link", "url", "hiato", "Trimestral"⟩] =
        ([⟨"IFI", "Link", "url", "hiato", "Trimestral"⟩], .ok ()) ∧
      (⟨"B3", "Manual", "x", "y", "Mensal"⟩ : MetaRow) ∉
        (coleta_run [⟨"B3", "Manual", "x", "y", "Mensal"⟩,
          ⟨"IFI", "Link", "url", "hiato", "Trimestral"⟩]).1 :=
  orchestrator_skips_unmatched_rows ⟨"B3", "Manual", "x", "y", "Mensal"⟩
    ⟨"IFI", "Link", "url", "hiato", "Trimestral"⟩ (by decide) (by decide) rfl
